import Mathlib

/-!
Verification model of `src/trace_processor/util/proto_to_args_parser.cc`
(perfetto's `ProtoToArgsParser`).

Modelling conventions:
- C++ `std::string` is modelled as `List Char` (`Str`); `string::size()` is
  `List.length`, `append` is `++`, and `erase(n)` (truncation to the first
  `n` units, as used by `ScopedStringAppender`) is `List.take n`.
- The external wire decoder (`protozero::ProtoDecoder` / `protozero::Field`)
  is modelled at its interface: a byte span plays the role of the finite
  sequence of wire fields the decoder yields from it, and each wire field
  carries the values its typed accessors (`as_int32`, `as_string`, ...)
  would return.  The payloads of the floating-point accessors are carried
  as opaque integer stand-ins; no claim depends on their arithmetic.
- The `Delegate` sink is modelled as a trace: each parsing function returns
  the list of emissions it performed, in order, next to its status.
- The mutable member `key_prefix_` is threaded through the parsing
  functions as explicit state (argument `kp`, returned updated).
-/

namespace ProtoToArgs

/-- C++ `std::string`, modelled as a list of characters. -/
abbrev Str := List Char

/-- Converts a Lean string literal to the `Str` model. -/
def str (s : String) : Str := s.data

/-- ProtoToArgsParser::Key: the pair of dotted path strings handed to the
Delegate (`flat_key` without repeated-field indices, `key` with them). -/
structure Key where
  flat_key : Str
  key : Str
  deriving DecidableEq, Repr

/-- base::Status: ok or an error carrying a message. -/
inductive Status where
  | ok : Status
  | err : Str → Status
  deriving DecidableEq, Repr

/-- base::Status::ok(). -/
def Status.isOk : Status → Bool
  | .ok => true
  | .err _ => false

-- Numeric values of protos::pbzero::FieldDescriptorProto::Type.
namespace FieldDescriptorProto

def TYPE_DOUBLE : Nat := 1
def TYPE_FLOAT : Nat := 2
def TYPE_INT64 : Nat := 3
def TYPE_UINT64 : Nat := 4
def TYPE_INT32 : Nat := 5
def TYPE_FIXED64 : Nat := 6
def TYPE_FIXED32 : Nat := 7
def TYPE_BOOL : Nat := 8
def TYPE_STRING : Nat := 9
def TYPE_MESSAGE : Nat := 11
def TYPE_BYTES : Nat := 12
def TYPE_UINT32 : Nat := 13
def TYPE_ENUM : Nat := 14
def TYPE_SFIXED32 : Nat := 15
def TYPE_SFIXED64 : Nat := 16
def TYPE_SINT32 : Nat := 17
def TYPE_SINT64 : Nat := 18

end FieldDescriptorProto

open FieldDescriptorProto

/-- Modelled from the spec: `FieldDescriptor` (declared in
`src/trace_processor/util/descriptors.h`, which is not part of the given
sources).  Per spec section 6 it exposes name, declared type tag, repeated
flag, extension flag, and the resolved nested/enum type name; the tag
number is what `FindFieldByTag` matches on. -/
structure FieldDescriptor where
  name : Str
  number : Nat
  type : Nat
  is_repeated : Bool
  is_extension : Bool
  resolved_type_name : Str
  deriving DecidableEq, Repr

/-- Modelled from the spec: a message/enum descriptor
(`descriptors.h` is not in the given sources).  Spec section 6:
`find_field_by_tag(tag) -> Option<FieldDescriptor>` and
`find_enum_name(value) -> Option<string>`. -/
structure ProtoDescriptor where
  field_list : List FieldDescriptor
  enum_list : List (Int × Str)
  deriving DecidableEq, Repr

/-- ProtoDescriptor::FindFieldByTag. -/
def ProtoDescriptor.FindFieldByTag (d : ProtoDescriptor) (tag : Nat) :
    Option FieldDescriptor :=
  d.field_list.find? (fun fd => fd.number == tag)

/-- ProtoDescriptor::FindEnumString. -/
def ProtoDescriptor.FindEnumString (d : ProtoDescriptor) (value : Int) :
    Option Str :=
  (d.enum_list.find? (fun ev => ev.fst == value)).map Prod.snd

/-- Modelled from the spec: the `DescriptorPool` schema registry
(`descriptors.h` is not in the given sources).  Spec section 6:
`find_message(type_name) -> Option<MessageDescriptor>`.  This composes the
source's `FindDescriptorIdx` with indexing into `descriptors()` (first
match by full type name). -/
structure DescriptorPool where
  descriptors : List (Str × ProtoDescriptor)

/-- DescriptorPool name resolution: `FindDescriptorIdx` followed by
`descriptors()[*idx]`. -/
def DescriptorPool.FindDescriptor (p : DescriptorPool) (type : Str) :
    Option ProtoDescriptor :=
  (p.descriptors.find? (fun e => e.fst == type)).map Prod.snd

/-- The values a `protozero::Field`'s typed accessors would return for a
wire field.  Modelled from the spec (section 6, Decoder interface): each
accessor reinterprets the raw payload; the model carries the results
directly.  Floating-point payloads are opaque integer stand-ins. -/
structure ScalarView where
  as_int32 : Int
  as_sint32 : Int
  as_int64 : Int
  as_sint64 : Int
  as_uint32 : Nat
  as_uint64 : Nat
  as_bool : Bool
  as_double : Int
  as_float : Int
  as_string : Str
  deriving DecidableEq, Repr

/-- One decoded wire field: its tag (`id()`), its scalar accessor view,
and — for length-delimited fields used as sub-messages — the wire fields
that decoding its `as_bytes()` payload yields (the external decoder is
modelled at this interface, per spec section 6). -/
inductive WireField where
  | mk : Nat → ScalarView → List WireField → WireField

/-- protozero::Field::id(). -/
def WireField.id : WireField → Nat
  | .mk i _ _ => i

/-- The scalar accessor view of a wire field. -/
def WireField.view : WireField → ScalarView
  | .mk _ v _ => v

/-- protozero::Field::as_bytes(), seen through the decoder: the wire
fields of the embedded message. -/
def WireField.as_bytes : WireField → List WireField
  | .mk _ _ sub => sub

def WireField.as_int32 (f : WireField) : Int := f.view.as_int32
def WireField.as_sint32 (f : WireField) : Int := f.view.as_sint32
def WireField.as_int64 (f : WireField) : Int := f.view.as_int64
def WireField.as_sint64 (f : WireField) : Int := f.view.as_sint64
def WireField.as_uint32 (f : WireField) : Nat := f.view.as_uint32
def WireField.as_uint64 (f : WireField) : Nat := f.view.as_uint64
def WireField.as_bool (f : WireField) : Bool := f.view.as_bool
def WireField.as_double (f : WireField) : Int := f.view.as_double
def WireField.as_float (f : WireField) : Int := f.view.as_float
def WireField.as_string (f : WireField) : Str := f.view.as_string

/-- One Delegate call, recorded with the Key snapshot it received. -/
inductive Emission where
  | AddInteger : Key → Int → Emission
  | AddUnsignedInteger : Key → Nat → Emission
  | AddBoolean : Key → Bool → Emission
  | AddDouble : Key → Int → Emission
  | AddString : Key → Str → Emission
  deriving DecidableEq, Repr

/-- Modelled from the spec: `ProtoToArgsParser::ParsingOverride` (declared
in the header, which is not in the given sources).  Spec section 3: a
handler `(raw field, Delegate) -> Optional<Status>`; in the trace model a
handler returns the emissions it performs plus its optional status. -/
def ParsingOverride := WireField → Option Status × List Emission

/-- The parser's construction-time state: the descriptor pool reference
and the registered overrides (a map from exact flat-key string to handler;
modelled as an association list where the most recent registration is
found first).  The mutable member `key_prefix_` is threaded explicitly
through the parsing functions. -/
structure ProtoToArgsParser where
  pool_ : DescriptorPool
  overrides_ : List (Str × ParsingOverride)

/-- ProtoToArgsParser::AddParsingOverride: `overrides_[field] = func`
(last registration for a path wins). -/
def ProtoToArgsParser.AddParsingOverride (p : ProtoToArgsParser)
    (field : Str) (func : ParsingOverride) : ProtoToArgsParser :=
  { p with overrides_ := (field, func) :: p.overrides_ }

/-- Lookup in `overrides_` by exact string match. -/
def lookupOverride (overrides : List (Str × ParsingOverride)) (k : Str) :
    Option ParsingOverride :=
  (overrides.find? (fun e => e.fst == k)).map Prod.snd

/-- ScopedStringAppender construction: append `append` to `dest`,
prefixed by "." unless `dest` is empty.  (The destructor is
`List.take old_size`, applied at every exit of the enclosing scope.) -/
def scopedAppend (append : Str) (dest : Str) : Str :=
  if dest.isEmpty then dest ++ append else dest ++ str "." ++ append

/-- The allowlist check of ParseMessage:
`field->is_extension() || !allowed_fields || find(...) != end()`. -/
def isAllowedField (field : FieldDescriptor)
    (allowed_fields : Option (List Nat)) (tag : Nat) : Bool :=
  field.is_extension || allowed_fields.isNone ||
    (allowed_fields.getD []).contains tag

/-- ProtoToArgsParser::MaybeApplyOverride: look up the current flat key;
`nullopt` when no handler is registered, otherwise the handler's result
(itself an `Optional<Status>`), together with the emissions the handler
made through the delegate. -/
def MaybeApplyOverride (p : ProtoToArgsParser) (flat : Str)
    (field : WireField) : Option Status × List Emission :=
  match lookupOverride p.overrides_ flat with
  | none => (none, [])
  | some func => func field

/-- The message of base::ErrStatus("Tried to write value of type field %s
(in proto type %s) which has type enum %d", ...) in the default case of
ParseSimpleField. -/
def unsupportedTypeMsg (descriptor : FieldDescriptor) : Str :=
  str "Tried to write value of type field " ++ descriptor.name ++
    str " (in proto type " ++ descriptor.resolved_type_name ++
    str ") which has type enum " ++ (toString descriptor.type).data

/-- ProtoToArgsParser::ParseSimpleField: dispatch on the declared type and
emit one record; the default case of the switch is the unsupported-type
error. -/
def ParseSimpleField (p : ProtoToArgsParser) (descriptor : FieldDescriptor)
    (field : WireField) (kp : Key) : Status × List Emission :=
  let t := descriptor.type
  if t = TYPE_INT32 ∨ t = TYPE_SFIXED32 ∨ t = TYPE_FIXED32 then
    (.ok, [.AddInteger kp field.as_int32])
  else if t = TYPE_SINT32 then
    (.ok, [.AddInteger kp field.as_sint32])
  else if t = TYPE_INT64 ∨ t = TYPE_SFIXED64 ∨ t = TYPE_FIXED64 then
    (.ok, [.AddInteger kp field.as_int64])
  else if t = TYPE_SINT64 then
    (.ok, [.AddInteger kp field.as_sint64])
  else if t = TYPE_UINT32 then
    (.ok, [.AddUnsignedInteger kp field.as_uint32])
  else if t = TYPE_UINT64 then
    (.ok, [.AddUnsignedInteger kp field.as_uint64])
  else if t = TYPE_BOOL then
    (.ok, [.AddBoolean kp field.as_bool])
  else if t = TYPE_DOUBLE then
    (.ok, [.AddDouble kp field.as_double])
  else if t = TYPE_FLOAT then
    (.ok, [.AddDouble kp field.as_float])
  else if t = TYPE_STRING then
    (.ok, [.AddString kp field.as_string])
  else if t = TYPE_ENUM then
    match p.pool_.FindDescriptor descriptor.resolved_type_name with
    | none => (.ok, [.AddInteger kp field.as_int32])
    | some enum_descriptor =>
      match enum_descriptor.FindEnumString field.as_int32 with
      | none => (.ok, [.AddInteger kp field.as_int32])
      | some enum_string => (.ok, [.AddString kp enum_string])
  else
    (.err (unsupportedTypeMsg descriptor), [])

mutual

/-- The field loop of ProtoToArgsParser::ParseMessage: iterate the decoded
wire fields; skip tags with no descriptor; skip disallowed fields; call
ParseField with the current repeated-field counter; return on the first
error (RETURN_IF_ERROR), with emissions already made kept; increment the
counter after a repeated field. -/
def parseFieldsLoop (p : ProtoToArgsParser) (descriptor : ProtoDescriptor)
    (allowed_fields : Option (List Nat)) (fs : List WireField)
    (repeated_field_index : Nat → Nat) (kp : Key) :
    Status × List Emission × Key :=
  match fs with
  | [] => (.ok, [], kp)
  | f :: rest =>
    match descriptor.FindFieldByTag f.id with
    | none => parseFieldsLoop p descriptor allowed_fields rest
        repeated_field_index kp
    | some field =>
      if isAllowedField field allowed_fields f.id then
        match ParseField p field (repeated_field_index f.id) f kp with
        | (st, ems, kp1) =>
          if st.isOk then
            let rfi1 : Nat → Nat :=
              if field.is_repeated then
                fun t => if t = f.id then repeated_field_index t + 1
                         else repeated_field_index t
              else repeated_field_index
            match parseFieldsLoop p descriptor allowed_fields rest rfi1 kp1 with
            | (st2, ems2, kp2) => (st2, ems ++ ems2, kp2)
          else (st, ems, kp1)
      else parseFieldsLoop p descriptor allowed_fields rest
        repeated_field_index kp

/-- ProtoToArgsParser::ParseField: build the path segment (bracketed index
on the `key` side when the descriptor is repeated), push both segments
(ScopedStringAppender; the take-based unwind runs on every exit), try the
override, otherwise recurse into a message (the descriptor lookup of the
recursive ParseMessage call is inlined here so the recursion is structural
on the wire-field tree; `allowed_fields` of that call is `none`) or emit a
simple field. -/
def ParseField (p : ProtoToArgsParser) (field_descriptor : FieldDescriptor)
    (repeated_field_number : Nat) (field : WireField) (kp : Key) :
    Status × List Emission × Key :=
  match field with
  | .mk fid view sub =>
    let prefix_part : Str :=
      if field_descriptor.is_repeated then
        field_descriptor.name ++ str "[" ++
          (toString repeated_field_number).data ++ str "]"
      else field_descriptor.name
    let old_key_size := kp.key.length
    let old_flat_key_size := kp.flat_key.length
    let kp1 : Key := { flat_key := scopedAppend field_descriptor.name kp.flat_key,
                       key := scopedAppend prefix_part kp.key }
    let unwind : Key → Key := fun k =>
      { flat_key := k.flat_key.take old_flat_key_size,
        key := k.key.take old_key_size }
    match MaybeApplyOverride p kp1.flat_key (.mk fid view sub) with
    | (some status, ems) => (status, ems, unwind kp1)
    | (none, ems0) =>
      if field_descriptor.type = TYPE_MESSAGE then
        match p.pool_.FindDescriptor field_descriptor.resolved_type_name with
        | none => (.err (str "Failed to find proto descriptor"), ems0, unwind kp1)
        | some sub_descriptor =>
          match parseFieldsLoop p sub_descriptor none sub (fun _ => 0) kp1 with
          | (st, ems, kp2) => (st, ems0 ++ ems, unwind kp2)
      else
        match ParseSimpleField p field_descriptor (.mk fid view sub) kp1 with
        | (st, ems) => (st, ems0 ++ ems, unwind kp1)

end

/-- ProtoToArgsParser::ParseMessage: resolve the type name in the pool
(error when absent), create the fresh repeated-field counter map
(`unordered_map` defaulting to 0), and run the field loop. -/
def ParseMessage (p : ProtoToArgsParser) (cb : List WireField) (type : Str)
    (allowed_fields : Option (List Nat)) (kp : Key) :
    Status × List Emission × Key :=
  match p.pool_.FindDescriptor type with
  | none => (.err (str "Failed to find proto descriptor"), [], kp)
  | some descriptor =>
    parseFieldsLoop p descriptor allowed_fields cb (fun _ => 0) kp

/-- The parser's key prefix at construction: both strings empty. -/
def initialKeyPrefix : Key := { flat_key := [], key := [] }

/-- The Key value ParseField has pushed while processing a field: both
path strings extended by the field name, the `key` side with the bracketed
repeated index when the descriptor is repeated.  This is the Key the
Delegate sees for the field itself (and the prefix of everything emitted
below it). -/
def pushKey (fd : FieldDescriptor) (n : Nat) (kp : Key) : Key :=
  { flat_key := scopedAppend fd.name kp.flat_key,
    key := scopedAppend
      (if fd.is_repeated then
        fd.name ++ str "[" ++ (toString n).data ++ str "]"
      else fd.name) kp.key }

/-! Helper lemmas shared by the claim proofs. -/

theorem take_len_append (s t : Str) : (s ++ t).take s.length = s := by simp

theorem scopedAppend_take (a s : Str) : (scopedAppend a s).take s.length = s := by
  unfold scopedAppend
  split
  · next h =>
    rw [List.isEmpty_iff] at h
    subst h
    simp
  · rw [List.append_assoc]
    exact take_len_append s _

mutual

theorem ParseField_restores (p : ProtoToArgsParser) (fd : FieldDescriptor)
    (n : Nat) (f : WireField) (kp : Key) :
    (ParseField p fd n f kp).2.2 = kp := by
  obtain ⟨fid, view, sub⟩ := f
  rw [ParseField]
  simp only
  cases hov : MaybeApplyOverride p _ (WireField.mk fid view sub) with
  | mk ost ems =>
    cases ost with
    | some st => simp [scopedAppend_take]
    | none =>
      simp only
      split
      · cases hfd : p.pool_.FindDescriptor fd.resolved_type_name with
        | none => simp [scopedAppend_take]
        | some d =>
          simp only [parseFieldsLoop_restores p d none sub (fun _ => 0),
            scopedAppend_take]
      · simp [scopedAppend_take]

theorem parseFieldsLoop_restores (p : ProtoToArgsParser) (d : ProtoDescriptor)
    (a : Option (List Nat)) (fs : List WireField) (rfi : Nat → Nat) (kp : Key) :
    (parseFieldsLoop p d a fs rfi kp).2.2 = kp := by
  cases fs with
  | nil => rw [parseFieldsLoop]
  | cons f rest =>
    rw [parseFieldsLoop]
    cases hft : d.FindFieldByTag f.id with
    | none => exact parseFieldsLoop_restores p d a rest rfi kp
    | some field =>
      simp only
      split
      · have h1 := ParseField_restores p field (rfi f.id) f kp
        split
        · simp only [parseFieldsLoop_restores p d a rest _ _]
          exact h1
        · exact h1
      · exact parseFieldsLoop_restores p d a rest rfi kp

end

theorem ParseMessage_restores (p : ProtoToArgsParser) (cb : List WireField)
    (type : Str) (a : Option (List Nat)) (kp : Key) :
    (ParseMessage p cb type a kp).2.2 = kp := by
  unfold ParseMessage
  split
  · rfl
  · exact parseFieldsLoop_restores _ _ _ _ _ _

/-! Concrete fixtures: the message type `M` with fields
`{1: int32 "x", 2: repeated string "y", 3: message "child" of type C}` and
`C = {1: bool "flag"}` from the spec's end-to-end test, plus a few extra
descriptors for the other witnesses. -/

def zeroView : ScalarView := ⟨0, 0, 0, 0, 0, 0, false, 0, 0, []⟩

def fdX : FieldDescriptor := ⟨str "x", 1, TYPE_INT32, false, false, []⟩

def fdY : FieldDescriptor := ⟨str "y", 2, TYPE_STRING, true, false, []⟩

def fdChild : FieldDescriptor := ⟨str "child", 3, TYPE_MESSAGE, false, false, str "C"⟩

def fdFlag : FieldDescriptor := ⟨str "flag", 1, TYPE_BOOL, false, false, []⟩

def descM : ProtoDescriptor := ⟨[fdX, fdY, fdChild], []⟩

def descC : ProtoDescriptor := ⟨[fdFlag], []⟩

def exPool : DescriptorPool := ⟨[(str "M", descM), (str "C", descC)]⟩

def exParser : ProtoToArgsParser := ⟨exPool, []⟩

def exX : WireField := .mk 1 { zeroView with as_int32 := 5 } []

def exP : WireField := .mk 2 { zeroView with as_string := str "p" } []

def exQ : WireField := .mk 2 { zeroView with as_string := str "q" } []

def exFlag : WireField := .mk 1 { zeroView with as_bool := true } []

def exChild : WireField := .mk 3 zeroView [exFlag]

/-- C1: on every exit path of ParseField — override handling, message
recursion (successful or failing) and simple-field handling — both strings
of the key prefix are restored exactly to their values before the call,
and likewise for every ParseMessage call; hence two sibling fields of one
message are processed against identical prefixes and the snapshots the
Delegate observes for the second sibling carry no leftover segments of the
first, even when the first ran an override or aborted in a nested failure. -/
theorem parseField_restores_key_prefix_on_every_exit
    (p : ProtoToArgsParser) (fd : FieldDescriptor) (n : Nat) (f : WireField)
    (cb : List WireField) (type : Str) (a : Option (List Nat)) (kp : Key) :
    (ParseField p fd n f kp).2.2 = kp ∧ (ParseMessage p cb type a kp).2.2 = kp :=
  ⟨ParseField_restores p fd n f kp, ParseMessage_restores p cb type a kp⟩

/-- C2: on message type `M` with `x=5`, `y=["p","q"]`, `child.flag=true`
and no allowlist, ParseMessage emits exactly AddInteger(x/x, 5),
AddString(y[0]/y, "p"), AddString(y[1]/y, "q"),
AddBoolean(child.flag/child.flag, true), in this order, and succeeds. -/
theorem parseMessage_end_to_end_example :
    ParseMessage exParser [exX, exP, exQ, exChild] (str "M") none initialKeyPrefix =
      (.ok,
       [.AddInteger ⟨str "x", str "x"⟩ 5,
        .AddString ⟨str "y", str "y[0]"⟩ (str "p"),
        .AddString ⟨str "y", str "y[1]"⟩ (str "q"),
        .AddBoolean ⟨str "child.flag", str "child.flag"⟩ true],
       initialKeyPrefix) := by rfl

/-- C9: a wire field whose tag matches no FieldDescriptor of the current
message is skipped silently: it produces no Delegate call and no error,
and the loop continues on the remaining wire fields with unchanged
counter map and key prefix. -/
theorem unknown_tag_field_skipped_silently
    (p : ProtoToArgsParser) (d : ProtoDescriptor) (a : Option (List Nat))
    (f : WireField) (rest : List WireField) (rfi : Nat → Nat) (kp : Key)
    (h : d.FindFieldByTag f.id = none) :
    parseFieldsLoop p d a (f :: rest) rfi kp =
      parseFieldsLoop p d a rest rfi kp := by
  rw [parseFieldsLoop, h]

/-- Witness for C9: tag 99 has no descriptor in `M`; a tag-99 wire field
is skipped. -/
theorem unknown_tag_field_skipped_silently_witness :
    descM.FindFieldByTag 99 = none ∧
    parseFieldsLoop exParser descM none [WireField.mk 99 zeroView []]
        (fun _ => 0) initialKeyPrefix =
      parseFieldsLoop exParser descM none [] (fun _ => 0) initialKeyPrefix :=
  ⟨by decide,
   unknown_tag_field_skipped_silently exParser descM none
     (WireField.mk 99 zeroView []) [] (fun _ => 0) initialKeyPrefix (by decide)⟩

def fdStrEx : FieldDescriptor := ⟨str "s", 1, TYPE_STRING, false, false, []⟩

def fdBytesEx : FieldDescriptor := ⟨str "b", 1, TYPE_BYTES, false, false, str "B"⟩

def exStrField : WireField := .mk 1 { zeroView with as_string := str "s" } []

/-- Counterexample to C8 as stated: for a field declared byte-string
(TYPE_BYTES), ParseSimpleField does not emit AddString and does not
succeed — the switch has no bytes case, so the default branch returns the
unsupported-type error with no emission. -/
theorem bytes_field_hits_default_case :
    (ParseSimpleField exParser fdBytesEx exStrField initialKeyPrefix).1 ≠ Status.ok ∧
    (ParseSimpleField exParser fdBytesEx exStrField initialKeyPrefix).2 = [] := by
  constructor
  · decide
  · decide

/-- C8 amended: a field declared string is emitted via AddString with
success, but a field declared byte-string (bytes) has no case in
ParseSimpleField's switch and returns the unsupported-type error with no
emission. -/
theorem string_added_bytes_unsupported (p : ProtoToArgsParser)
    (fd : FieldDescriptor) (f : WireField) (kp : Key) :
    (fd.type = TYPE_STRING →
      ParseSimpleField p fd f kp = (.ok, [.AddString kp f.as_string])) ∧
    (fd.type = TYPE_BYTES →
      ParseSimpleField p fd f kp = (.err (unsupportedTypeMsg fd), [])) := by
  constructor <;> intro ht <;>
    simp [ParseSimpleField, ht, TYPE_DOUBLE, TYPE_FLOAT, TYPE_INT64,
      TYPE_UINT64, TYPE_INT32, TYPE_FIXED64, TYPE_FIXED32, TYPE_BOOL,
      TYPE_STRING, TYPE_BYTES, TYPE_UINT32, TYPE_ENUM, TYPE_SFIXED32,
      TYPE_SFIXED64, TYPE_SINT32, TYPE_SINT64]

/-- Witness for the amended C8: the string field of the fixtures is added
via AddString; the bytes field returns the unsupported-type error. -/
theorem string_added_bytes_unsupported_witness :
    ParseSimpleField exParser fdStrEx exStrField initialKeyPrefix =
      (.ok, [.AddString initialKeyPrefix (str "s")]) ∧
    ParseSimpleField exParser fdBytesEx exStrField initialKeyPrefix =
      (.err (unsupportedTypeMsg fdBytesEx), []) :=
  ⟨(string_added_bytes_unsupported exParser fdStrEx exStrField
      initialKeyPrefix).1 (by decide),
   (string_added_bytes_unsupported exParser fdBytesEx exStrField
      initialKeyPrefix).2 (by decide)⟩

/-! Fixtures for the override, enum and error-propagation claims. -/

def fdMsgB : FieldDescriptor := ⟨str "b", 1, TYPE_MESSAGE, false, false, str "C"⟩

def exMsgB : WireField := .mk 1 zeroView [exFlag]

/-- A parser with an override registered at flat key "b" whose handler
performs no emission and returns no status (base::nullopt). -/
def ovParserNull : ProtoToArgsParser :=
  ⟨exPool, [(str "b", fun _ => (none, []))]⟩

/-- A parser with an override registered at flat key "b" whose handler
returns an engaged error status and performs no emission. -/
def ovParserStop : ProtoToArgsParser :=
  ⟨exPool, [(str "b", fun _ => (some (.err (str "handled")), []))]⟩

/-- Counterexample to C4 as stated: with a handler registered at exactly
the current flat_key ("b") that returns no status, ParseField still
performs default processing — the field is message-typed and the recursion
into its contents emits child.flag — instead of returning the handler's
(nonexistent) status with no default processing. -/
theorem override_returning_nullopt_falls_through :
    (lookupOverride ovParserNull.overrides_ (str "b")).isSome = true ∧
    ParseField ovParserNull fdMsgB 0 exMsgB initialKeyPrefix =
      (.ok, [.AddBoolean ⟨str "b.flag", str "b.flag"⟩ true], initialKeyPrefix) :=
  ⟨rfl, rfl⟩

/-- C4 amended: if an override handler is registered for a path equal (by
exact string match) to the current flat_key and the handler returns an
engaged status, ParseField returns that status verbatim with exactly the
handler's emissions and performs no default processing — in particular no
recursive descent into a message-typed field; a handler that returns no
status falls through to default processing. -/
theorem override_with_status_short_circuits (p : ProtoToArgsParser)
    (fd : FieldDescriptor) (n : Nat) (f : WireField) (kp : Key)
    (h : ParsingOverride) (st : Status) (ems : List Emission)
    (hlook : lookupOverride p.overrides_ (scopedAppend fd.name kp.flat_key) = some h)
    (hrun : h f = (some st, ems)) :
    ParseField p fd n f kp = (st, ems, kp) := by
  obtain ⟨fid, view, sub⟩ := f
  rw [ParseField]
  simp only [MaybeApplyOverride, hlook, hrun, scopedAppend_take]

/-- Witness for the amended C4: the registered handler at "b" returns the
error status "handled"; ParseField on the message-typed field "b" returns
it verbatim, emits nothing (no recursion into b's contents), and restores
the prefix. -/
theorem override_with_status_short_circuits_witness :
    ParseField ovParserStop fdMsgB 0 exMsgB initialKeyPrefix =
      (.err (str "handled"), [], initialKeyPrefix) :=
  override_with_status_short_circuits ovParserStop fdMsgB 0 exMsgB
    initialKeyPrefix (fun _ => (some (.err (str "handled")), []))
    (.err (str "handled")) [] rfl rfl

def descE : ProtoDescriptor := ⟨[], [(1, str "ONE")]⟩

def enumPool : DescriptorPool := ⟨[(str "E", descE)]⟩

def enumParser : ProtoToArgsParser := ⟨enumPool, []⟩

def fdEnumRes : FieldDescriptor := ⟨str "e", 4, TYPE_ENUM, false, false, str "E"⟩

def fdEnumUnres : FieldDescriptor := ⟨str "e", 4, TYPE_ENUM, false, false, str "NOPE"⟩

def exEnum1 : WireField := .mk 4 { zeroView with as_int32 := 1 } []

def exEnum7 : WireField := .mk 4 { zeroView with as_int32 := 7 } []

/-- C6: ParseSimpleField on an enum-typed field always succeeds: if the
enum type name does not resolve in the pool, or it resolves but has no
symbolic name for the decoded value, the raw integer is emitted via
AddInteger; otherwise the symbolic name is emitted via AddString. -/
theorem enum_field_never_fails (p : ProtoToArgsParser)
    (fd : FieldDescriptor) (f : WireField) (kp : Key)
    (ht : fd.type = TYPE_ENUM) :
    (ParseSimpleField p fd f kp).1 = Status.ok ∧
    (p.pool_.FindDescriptor fd.resolved_type_name = none →
      (ParseSimpleField p fd f kp).2 = [.AddInteger kp f.as_int32]) ∧
    (∀ ed, p.pool_.FindDescriptor fd.resolved_type_name = some ed →
      (ed.FindEnumString f.as_int32 = none →
        (ParseSimpleField p fd f kp).2 = [.AddInteger kp f.as_int32]) ∧
      (∀ s, ed.FindEnumString f.as_int32 = some s →
        (ParseSimpleField p fd f kp).2 = [.AddString kp s])) := by
  have hps : ParseSimpleField p fd f kp =
      match p.pool_.FindDescriptor fd.resolved_type_name with
      | none => (.ok, [.AddInteger kp f.as_int32])
      | some ed =>
        match ed.FindEnumString f.as_int32 with
        | none => (.ok, [.AddInteger kp f.as_int32])
        | some s => (.ok, [.AddString kp s]) := by
    simp [ParseSimpleField, ht, TYPE_DOUBLE, TYPE_FLOAT, TYPE_INT64,
      TYPE_UINT64, TYPE_INT32, TYPE_FIXED64, TYPE_FIXED32, TYPE_BOOL,
      TYPE_STRING, TYPE_BYTES, TYPE_UINT32, TYPE_ENUM, TYPE_SFIXED32,
      TYPE_SFIXED64, TYPE_SINT32, TYPE_SINT64]
  refine ⟨?_, ?_, ?_⟩
  · rcases h1 : p.pool_.FindDescriptor fd.resolved_type_name with _ | ed
    · simp [hps, h1]
    · rcases h2 : ed.FindEnumString f.as_int32 with _ | s <;> simp [hps, h1, h2]
  · intro h1
    simp [hps, h1]
  · intro ed h1
    refine ⟨?_, ?_⟩
    · intro h2
      simp [hps, h1, h2]
    · intro s h2
      simp [hps, h1, h2]

/-- Witness for C6: the three enum cases on concrete descriptors — an
unresolvable enum type emits the raw value 7, a resolvable type without a
name for 7 emits the raw value 7, and value 1 with symbolic name "ONE"
emits "ONE"; the first case returns success. -/
theorem enum_field_never_fails_witness :
    (ParseSimpleField enumParser fdEnumUnres exEnum7 initialKeyPrefix).1 = Status.ok ∧
    (ParseSimpleField enumParser fdEnumUnres exEnum7 initialKeyPrefix).2 =
      [.AddInteger initialKeyPrefix 7] ∧
    (ParseSimpleField enumParser fdEnumRes exEnum7 initialKeyPrefix).2 =
      [.AddInteger initialKeyPrefix 7] ∧
    (ParseSimpleField enumParser fdEnumRes exEnum1 initialKeyPrefix).2 =
      [.AddString initialKeyPrefix (str "ONE")] :=
  ⟨(enum_field_never_fails enumParser fdEnumUnres exEnum7 initialKeyPrefix
      (by decide)).1,
   (enum_field_never_fails enumParser fdEnumUnres exEnum7 initialKeyPrefix
      (by decide)).2.1 (by decide),
   ((enum_field_never_fails enumParser fdEnumRes exEnum7 initialKeyPrefix
      (by decide)).2.2 descE (by decide)).1 (by decide),
   ((enum_field_never_fails enumParser fdEnumRes exEnum1 initialKeyPrefix
      (by decide)).2.2 descE (by decide)).2 (str "ONE") (by decide)⟩

/-- Helper for C7: at any point of the field loop, if ParseField fails on
the head field, the loop returns that failure with only the emissions made
so far and processes none of the remaining fields. -/
theorem loop_stops_at_first_error (p : ProtoToArgsParser) (d : ProtoDescriptor)
    (a : Option (List Nat)) (f : WireField) (rest : List WireField)
    (rfi : Nat → Nat) (kp : Key) (fd : FieldDescriptor) (e : Str)
    (hfind : d.FindFieldByTag f.id = some fd)
    (hallow : isAllowedField fd a f.id = true)
    (herr : (ParseField p fd (rfi f.id) f kp).1 = Status.err e) :
    parseFieldsLoop p d a (f :: rest) rfi kp =
      (Status.err e, (ParseField p fd (rfi f.id) f kp).2.1,
       (ParseField p fd (rfi f.id) f kp).2.2) := by
  rw [parseFieldsLoop, hfind]
  simp only [hallow, if_true]
  rw [herr]
  simp [Status.isOk]

/-- C7: if ParseField fails for a wire field, the enclosing message decode
returns that failure immediately: no later wire field of the message is
processed or produces a Delegate call.  Stated both for an arbitrary loop
state (the failing field at any position, with the counters and prefix
current at that point) and for ParseMessage itself. -/
theorem first_error_propagates_and_stops (p : ProtoToArgsParser)
    (d : ProtoDescriptor) (t : Str) (a : Option (List Nat)) (f : WireField)
    (rest : List WireField) (rfi : Nat → Nat) (kp : Key)
    (fd : FieldDescriptor) (e : Str) :
    (d.FindFieldByTag f.id = some fd → isAllowedField fd a f.id = true →
      (ParseField p fd (rfi f.id) f kp).1 = Status.err e →
      parseFieldsLoop p d a (f :: rest) rfi kp =
        (Status.err e, (ParseField p fd (rfi f.id) f kp).2.1,
         (ParseField p fd (rfi f.id) f kp).2.2)) ∧
    (p.pool_.FindDescriptor t = some d → d.FindFieldByTag f.id = some fd →
      isAllowedField fd a f.id = true →
      (ParseField p fd 0 f kp).1 = Status.err e →
      ParseMessage p (f :: rest) t a kp =
        (Status.err e, (ParseField p fd 0 f kp).2.1,
         (ParseField p fd 0 f kp).2.2)) := by
  refine ⟨loop_stops_at_first_error p d a f rest rfi kp fd e, ?_⟩
  intro hdesc hfind hallow herr
  rw [ParseMessage, hdesc]
  exact loop_stops_at_first_error p d a f rest (fun _ => 0) kp fd e
    hfind hallow herr

def fdBad : FieldDescriptor := ⟨str "bad", 1, 10, false, false, str "G"⟩

def fdGood : FieldDescriptor := ⟨str "g", 2, TYPE_STRING, false, false, []⟩

def descF : ProtoDescriptor := ⟨[fdBad, fdGood], []⟩

def failParser : ProtoToArgsParser := ⟨⟨[(str "F", descF)]⟩, []⟩

def exBad : WireField := .mk 1 zeroView []

def exGood : WireField := .mk 2 { zeroView with as_string := str "ok" } []

/-- Witness for C7: a message with tag 1 of unsupported declared type 10
followed by a valid string field at tag 2 returns the tag-1 error, with no
emission at all — the Delegate never observes tag 2. -/
theorem first_error_propagates_and_stops_witness :
    ParseMessage failParser [exBad, exGood] (str "F") none initialKeyPrefix =
      (Status.err (unsupportedTypeMsg fdBad), [], initialKeyPrefix) :=
  ((first_error_propagates_and_stops failParser descF (str "F") none exBad
      [exGood] (fun _ => 0) initialKeyPrefix fdBad
      (unsupportedTypeMsg fdBad)).2
    (by decide) (by decide) (by decide) (by decide)).trans (by decide)

/-- Helper: with no overrides registered, ParseField on a string-typed
descriptor emits the field's string under the pushed key and succeeds,
restoring the prefix. -/
theorem ParseField_string (p : ProtoToArgsParser) (fd : FieldDescriptor)
    (n : Nat) (f : WireField) (kp : Key)
    (hov : p.overrides_ = []) (ht : fd.type = TYPE_STRING) :
    ParseField p fd n f kp =
      (.ok, [.AddString (pushKey fd n kp) f.as_string], kp) := by
  obtain ⟨fid, view, sub⟩ := f
  rw [ParseField]
  simp [MaybeApplyOverride, lookupOverride, hov, ht, ParseSimpleField,
    pushKey, scopedAppend_take, WireField.as_string, WireField.view,
    TYPE_DOUBLE, TYPE_FLOAT, TYPE_INT64, TYPE_UINT64, TYPE_INT32,
    TYPE_FIXED64, TYPE_FIXED32, TYPE_BOOL, TYPE_STRING, TYPE_BYTES,
    TYPE_UINT32, TYPE_ENUM, TYPE_SFIXED32, TYPE_SFIXED64, TYPE_SINT32,
    TYPE_SINT64, TYPE_MESSAGE]

/-- The emissions the spec predicts for N occurrences of a repeated
string field at the top level, starting at occurrence index c: the key
carries the bracketed index, the flat key is the bare name. -/
def expectedRepeatedKeys (name : Str) : Nat → List WireField → List Emission
  | _, [] => []
  | c, f :: rest =>
    .AddString ⟨name, name ++ str "[" ++ (toString c).data ++ str "]"⟩
        f.as_string ::
      expectedRepeatedKeys name (c + 1) rest

/-- Helper for C5: the field loop over occurrences of one repeated string
tag emits bracketed keys counting up from the current counter value. -/
theorem loop_repeated_string_emits (p : ProtoToArgsParser)
    (d : ProtoDescriptor) (fd : FieldDescriptor) (tag : Nat)
    (hov : p.overrides_ = []) (hfind : d.FindFieldByTag tag = some fd)
    (hrep : fd.is_repeated = true) (ht : fd.type = TYPE_STRING)
    (fs : List WireField) :
    ∀ (rfi : Nat → Nat) (c : Nat), (∀ f ∈ fs, f.id = tag) → rfi tag = c →
      parseFieldsLoop p d none fs rfi initialKeyPrefix =
        (.ok, expectedRepeatedKeys fd.name c fs, initialKeyPrefix) := by
  induction fs with
  | nil =>
    intro rfi c _ _
    rw [parseFieldsLoop]
    simp [expectedRepeatedKeys]
  | cons f rest ih =>
    intro rfi c hall hc
    have hid : f.id = tag := hall f (List.mem_cons_self f rest)
    rw [parseFieldsLoop, hid, hfind]
    have hpf := ParseField_string p fd (rfi tag) f initialKeyPrefix hov ht
    rw [hc] at hpf
    simp [pushKey, hrep, scopedAppend, initialKeyPrefix] at hpf
    have hih := ih (fun t => if t = tag then rfi t + 1 else rfi t) (c + 1)
      (fun g hg => hall g (List.mem_cons_of_mem f hg)) (by simp [hc])
    simp only [initialKeyPrefix] at hih
    simp [isAllowedField, hpf, Status.isOk, hrep, hih, hc,
      expectedRepeatedKeys, initialKeyPrefix]

/-- C5: for a message consisting of N wire occurrences of one repeated
string field, ParseMessage succeeds and emits keys name[0], name[1], …,
name[N-1] in wire order with the bare name as flat key; the occurrence
counter starts at 0 because ParseMessage creates it fresh (and it lives
only in this call, never shared with sibling or parent decodes). -/
theorem repeated_field_keys_indexed_in_wire_order (p : ProtoToArgsParser)
    (t : Str) (d : ProtoDescriptor) (fd : FieldDescriptor) (tag : Nat)
    (fs : List WireField)
    (hov : p.overrides_ = []) (hdesc : p.pool_.FindDescriptor t = some d)
    (hfind : d.FindFieldByTag tag = some fd) (hrep : fd.is_repeated = true)
    (ht : fd.type = TYPE_STRING) (hall : ∀ f ∈ fs, f.id = tag) :
    ParseMessage p fs t none initialKeyPrefix =
      (.ok, expectedRepeatedKeys fd.name 0 fs, initialKeyPrefix) := by
  rw [ParseMessage, hdesc]
  exact loop_repeated_string_emits p d fd tag hov hfind hrep ht fs
    (fun _ => 0) 0 hall rfl

/-- Witness for C5: the two occurrences of `y` in the fixture message
yield keys y[0] and y[1] with flat key y, in wire order. -/
theorem repeated_field_keys_indexed_in_wire_order_witness :
    ParseMessage exParser [exP, exQ] (str "M") none initialKeyPrefix =
      (.ok,
       [.AddString ⟨str "y", str "y[0]"⟩ (str "p"),
        .AddString ⟨str "y", str "y[1]"⟩ (str "q")],
       initialKeyPrefix) :=
  (repeated_field_keys_indexed_in_wire_order exParser (str "M") descM fdY 2
    [exP, exQ] rfl (by decide) (by decide) (by decide) (by decide)
    (by decide)).trans (by decide)

/-- C10: occurrences of a non-repeated field tag are each processed and
emitted — no deduplication or last-wins collapsing — all under the same
bare key and flat key without a bracketed index, and the occurrence
counter is not incremented: the remaining fields are processed with the
unchanged counter map (and prefix). -/
theorem nonrepeated_duplicates_all_emitted (p : ProtoToArgsParser)
    (d : ProtoDescriptor) (a : Option (List Nat)) (fd : FieldDescriptor)
    (tag : Nat) (fs rest : List WireField) (rfi : Nat → Nat) (kp : Key)
    (hov : p.overrides_ = []) (hfind : d.FindFieldByTag tag = some fd)
    (hnrep : fd.is_repeated = false) (ht : fd.type = TYPE_STRING)
    (hallow : isAllowedField fd a tag = true)
    (hall : ∀ f ∈ fs, f.id = tag) :
    parseFieldsLoop p d a (fs ++ rest) rfi kp =
      ((parseFieldsLoop p d a rest rfi kp).1,
       fs.map (fun f => .AddString ⟨scopedAppend fd.name kp.flat_key,
         scopedAppend fd.name kp.key⟩ f.as_string) ++
         (parseFieldsLoop p d a rest rfi kp).2.1,
       (parseFieldsLoop p d a rest rfi kp).2.2) := by
  induction fs with
  | nil =>
    rfl
  | cons f fs2 ih =>
    have hid : f.id = tag := hall f (List.mem_cons_self f fs2)
    rw [List.cons_append, parseFieldsLoop, hid, hfind]
    have hpf := ParseField_string p fd (rfi tag) f kp hov ht
    have hih := ih (fun g hg => hall g (List.mem_cons_of_mem f hg))
    simp [hallow, hpf, Status.isOk, hnrep, pushKey, hih]

def descD2 : ProtoDescriptor := ⟨[fdStrEx], []⟩

def dupParser : ProtoToArgsParser := ⟨⟨[(str "D", descD2)]⟩, []⟩

def exS1 : WireField := .mk 1 { zeroView with as_string := str "a" } []

def exS2 : WireField := .mk 1 { zeroView with as_string := str "b" } []

/-- Witness for C10: two wire occurrences of the non-repeated string
field `s` are both emitted, each under key s / flat key s with no index. -/
theorem nonrepeated_duplicates_all_emitted_witness :
    parseFieldsLoop dupParser descD2 none ([exS1, exS2] ++ []) (fun _ => 0)
        initialKeyPrefix =
      (.ok,
       [.AddString ⟨str "s", str "s"⟩ (str "a"),
        .AddString ⟨str "s", str "s"⟩ (str "b")],
       initialKeyPrefix) :=
  (nonrepeated_duplicates_all_emitted dupParser descD2 none fdStrEx 1
    [exS1, exS2] [] (fun _ => 0) initialKeyPrefix rfl (by decide) (by decide)
    (by decide) (by decide) (by decide)).trans (by decide)

/-- C3: (i) a wire field with a known descriptor passes the allowlist
check exactly when the field is an extension, or no allowlist was given,
or its tag is listed; (ii) a known field failing the check is skipped
silently — the loop result is exactly the loop result on the remaining
fields, with no emission, no error and untouched counters and prefix;
(iii) a known field passing the check is processed: its ParseField
emissions are produced and the loop continues behind them; (iv) a
message-typed field (with no override applying) is parsed by a recursive
ParseMessage call made with allowlist `none`, so the top-level allowlist
does not propagate into nested messages. -/
theorem allowlist_filters_only_at_its_own_level (p : ProtoToArgsParser)
    (d : ProtoDescriptor) (a : Option (List Nat)) (f : WireField)
    (rest : List WireField) (rfi : Nat → Nat) (kp : Key)
    (field fd : FieldDescriptor) (tag n : Nat) (ems0 : List Emission) :
    (isAllowedField field a tag = true ↔
      (field.is_extension = true ∨ a = none ∨ tag ∈ a.getD [])) ∧
    (d.FindFieldByTag f.id = some field → isAllowedField field a f.id = false →
      parseFieldsLoop p d a (f :: rest) rfi kp =
        parseFieldsLoop p d a rest rfi kp) ∧
    (d.FindFieldByTag f.id = some field → isAllowedField field a f.id = true →
      (ParseField p field (rfi f.id) f kp).1 = Status.ok →
      parseFieldsLoop p d a (f :: rest) rfi kp =
        (let rfi1 : Nat → Nat :=
          if field.is_repeated then
            fun t => if t = f.id then rfi t + 1 else rfi t
          else rfi
         ((parseFieldsLoop p d a rest rfi1 kp).1,
          (ParseField p field (rfi f.id) f kp).2.1 ++
            (parseFieldsLoop p d a rest rfi1 kp).2.1,
          (parseFieldsLoop p d a rest rfi1 kp).2.2))) ∧
    (fd.type = TYPE_MESSAGE →
      MaybeApplyOverride p (pushKey fd n kp).flat_key f = (none, ems0) →
      ParseField p fd n f kp =
        ((ParseMessage p f.as_bytes fd.resolved_type_name none
            (pushKey fd n kp)).1,
         ems0 ++ (ParseMessage p f.as_bytes fd.resolved_type_name none
            (pushKey fd n kp)).2.1,
         kp)) := by
  refine ⟨?_, ?_, ?_, ?_⟩
  · simp [isAllowedField, Option.isNone_iff_eq_none, or_assoc]
  · intro hfind hnot
    rw [parseFieldsLoop, hfind]
    simp [hnot]
  · intro hfind hallow hok
    rw [parseFieldsLoop, hfind]
    have hres := ParseField_restores p field (rfi f.id) f kp
    rcases hpf : ParseField p field (rfi f.id) f kp with ⟨st, ems, kp2⟩
    rw [hpf] at hok hres
    simp only at hok hres
    subst hok
    subst hres
    simp [hallow, hpf, Status.isOk]
  · intro ht hov
    obtain ⟨fid, view, sub⟩ := f
    simp only [pushKey, WireField.as_bytes] at hov ⊢
    rw [ParseField]
    simp only [hov, ht, TYPE_MESSAGE, if_pos]
    cases hfd : p.pool_.FindDescriptor fd.resolved_type_name with
    | none => simp [ParseMessage, hfd, scopedAppend_take]
    | some d2 =>
      simp [ParseMessage, hfd, parseFieldsLoop_restores, scopedAppend_take]

/-- Witness for C3: with allowlist {3} on the fixture message `M`, the
int32 field `x` (tag 1, not an extension, not listed) is skipped; and the
message field `child` is parsed through a recursive ParseMessage with
allowlist `none`. -/
theorem allowlist_filters_only_at_its_own_level_witness :
    (isAllowedField fdX (some [3]) 1 = true ↔
      (fdX.is_extension = true ∨ (some [3] : Option (List Nat)) = none ∨
        1 ∈ (some [3] : Option (List Nat)).getD [])) ∧
    (parseFieldsLoop exParser descM (some [3]) [exX] (fun _ => 0)
        initialKeyPrefix =
      parseFieldsLoop exParser descM (some [3]) [] (fun _ => 0)
        initialKeyPrefix) ∧
    (parseFieldsLoop exParser descM (some [1]) [exX] (fun _ => 0)
        initialKeyPrefix =
      (let rfi1 : Nat → Nat :=
        if fdX.is_repeated then
          fun t => if t = exX.id then (fun _ => 0) t + 1 else (fun _ => 0) t
        else fun _ => 0
       ((parseFieldsLoop exParser descM (some [1]) [] rfi1
           initialKeyPrefix).1,
        (ParseField exParser fdX ((fun _ => 0) exX.id) exX
            initialKeyPrefix).2.1 ++
          (parseFieldsLoop exParser descM (some [1]) [] rfi1
            initialKeyPrefix).2.1,
        (parseFieldsLoop exParser descM (some [1]) [] rfi1
          initialKeyPrefix).2.2))) ∧
    (ParseField exParser fdChild 0 exChild initialKeyPrefix =
      ((ParseMessage exParser exChild.as_bytes fdChild.resolved_type_name
          none (pushKey fdChild 0 initialKeyPrefix)).1,
       [] ++ (ParseMessage exParser exChild.as_bytes
          fdChild.resolved_type_name none
          (pushKey fdChild 0 initialKeyPrefix)).2.1,
       initialKeyPrefix)) :=
  ⟨(allowlist_filters_only_at_its_own_level exParser descM (some [3]) exX []
      (fun _ => 0) initialKeyPrefix fdX fdX 1 0 []).1,
   (allowlist_filters_only_at_its_own_level exParser descM (some [3]) exX []
      (fun _ => 0) initialKeyPrefix fdX fdX 1 0 []).2.1 (by decide) (by decide),
   (allowlist_filters_only_at_its_own_level exParser descM (some [1]) exX []
      (fun _ => 0) initialKeyPrefix fdX fdX 1 0 []).2.2.1 (by decide)
     (by decide) (by decide),
   (allowlist_filters_only_at_its_own_level exParser descM (some [3]) exChild
      [] (fun _ => 0) initialKeyPrefix fdX fdChild 1 0 []).2.2.2 (by decide)
     (by rfl)⟩

end ProtoToArgs
